import Mathlib

/-!
A shallow embedding of the temp-file lifecycle and endpoint orchestration of
`src/apiDocumentos/app.py` (a FastAPI file-conversion service), together with
theorems settling the frozen claims about it.

Modelling conventions:
* The filesystem is the set of existing regular-file paths (`FS.files`).
* `os.remove p` succeeds iff `FS.deletable p`; a failed removal raises in
  Python, and the caller's `try`/`except` swallows it, so in the model it
  simply leaves the file in place.
* `shutil.disk_usage(SSD_PATH)` succeeds iff `FS.ssdAccessible`, reporting
  `FS.freeGB` gibibytes free (an exact rational standing in for the float
  `free / 1024**3`; the thresholds 10, 5 and 0.1 are compared exactly).
* External tools (LibreOffice, PIL, pdf2image, PyPDF2) are modelled by
  per-request outcome flags: whether the subprocess exited cleanly, whether
  it produced a (non-empty) output file, whether an image open/save or a
  merger append/write succeeded.
* An endpoint run returns the error kind its `except Exception` handler saw
  (if any), the path list it passed to `cleanup_files`, the background
  cleanup list scheduled on success, the set of files created on disk during
  the run, and the filesystem state after the error-path cleanup ran.
-/

/-- Storage root hardcoded in the source (`SSD_PATH = "/mnt/ssd_storage"`). -/
def SSD_PATH : String := "/mnt/ssd_storage"

/-- Temp directory `os.path.join(SSD_PATH, "fileconverter_temp")`. -/
def TEMP_DIR : String := SSD_PATH ++ "/fileconverter_temp"

/-- MIME prefix allow-list (`ALLOWED_MIME_TYPES` in the source). -/
def ALLOWED_MIME_TYPES : List String :=
  ["image/", "application/pdf", "text/", "application/"]

/-- Python's `str.startswith`, phrased over character lists so the kernel can
evaluate it on concrete strings. -/
def strStarts (pre s : String) : Bool := List.isPrefixOf pre.data s.data

/-- True when the path lies under the temp root; models which files
`shutil.rmtree(TEMP_DIR, ...)` can touch. -/
def isUnderTemp (p : String) : Bool := strStarts TEMP_DIR p

/-- Filesystem-and-environment state for one run. -/
structure FS where
  files : List String
  deletable : String → Bool
  ssdAccessible : Bool
  freeGB : ℚ

/-- `get_disk_space`: free gibibytes on the SSD, or `none` when
`shutil.disk_usage(SSD_PATH)` raises (storage root inaccessible). -/
def get_disk_space (s : FS) : Option ℚ :=
  if s.ssdAccessible then some s.freeGB else none

/-- Creating (or truncating) a file with `open(p, "wb")`. -/
def addFile (s : FS) (p : String) : FS :=
  if p ∈ s.files then s else { s with files := p :: s.files }

/-- A successful `os.remove p`. -/
def removeFile (s : FS) (p : String) : FS :=
  { s with files := s.files.filter (fun x => x != p) }

/-- Python truthiness of an optional path, as tested by `if path and ...`. -/
def isTruthy : Option String → Bool
  | none => false
  | some q => q != ""

/-- The `for path in file_paths` loop of `cleanup_files`: skip falsy entries,
skip non-existent paths, remove existing ones, swallow removal failures. -/
def cleanupLoop (s : FS) : List (Option String) → FS
  | [] => s
  | p :: ps =>
    match p with
    | none => cleanupLoop s ps
    | some q =>
      if q = "" then cleanupLoop s ps
      else if q ∈ s.files then
        if s.deletable q then cleanupLoop (removeFile s q) ps
        else cleanupLoop s ps
      else cleanupLoop s ps

/-- `shutil.rmtree(TEMP_DIR, ignore_errors=True)` followed by
`os.makedirs(TEMP_DIR, exist_ok=True)`: every deletable file under the temp
root disappears; a file whose removal fails is silently left in place. -/
def purge (s : FS) : FS :=
  { s with files := s.files.filter (fun p => !(isUnderTemp p) || !(s.deletable p)) }

/-- `cleanup_files(file_paths)`. The second component is `true` exactly when
the call raises: the per-path loop swallows everything, but the trailing
`get_disk_space()` re-check is unguarded and propagates its failure. -/
def cleanup_files (ps : List (Option String)) (s : FS) : FS × Bool :=
  let s1 := cleanupLoop s ps
  if s1.ssdAccessible then
    (if s1.freeGB < 5 then purge s1 else s1, false)
  else (s1, true)

/-- Acceptance condition of `validate_file`: the sniffed type starts with one
of the allow-list prefixes. -/
def allowedMime (ft : String) : Bool := ALLOWED_MIME_TYPES.any (fun a => strStarts a ft)

/-- Error kinds distinguishable in the endpoints' exception messages. -/
inductive ApiError where
  | insufficientSpace
  | unsupportedType
  | unsupportedConversion
  | conversionFailed
  | uploadReadFailed
  | onlyPdfAllowed
  | mergeAppendFailed
  | mergeWriteFailed
  | diskFailure
deriving DecidableEq

/-- Which external converter a `/convert/` run invoked. -/
inductive Converter where
  | libre
  | pil
  | p2i
deriving DecidableEq

/-- One upload to `/convert/`: the client filename, the MIME type sniffed by
`magic.from_buffer`, and whether streaming it to disk completes. -/
structure ConvUpload where
  filename : String
  sniffed : String
  writeOk : Bool

/-- Outcome flags for the `convert_with_libreoffice` subprocess. -/
structure LoEnv where
  exitOk : Bool
  outExists : Bool
  outNonempty : Bool

/-- `os.path.basename`, over character lists. -/
def pyBasename (p : String) : String :=
  String.mk (p.data.foldl (fun acc c => if c = '/' then [] else acc ++ [c]) [])

/-- The stem part of `os.path.splitext`: drop everything from the last dot on
(when a dot is present). The leading-dot special case of hidden files is not
modelled; no claim depends on it. -/
def splitextBase (name : String) : String :=
  let r := name.data.reverse
  if '.' ∈ r then String.mk (((r.dropWhile (fun c => c ≠ '.')).drop 1).reverse)
  else name

/-- Input temp path of `/convert/` (line 136): joined from the client
filename with no random token. -/
def tempInputPath (filename : String) : String := TEMP_DIR ++ "/" ++ filename

/-- Output path of the image branches of `/convert/` (lines 146 and 150):
`converted_<token>.<fmt>` under the temp root. -/
def convOutPath (tok fmt : String) : String :=
  TEMP_DIR ++ "/converted_" ++ tok ++ "." ++ fmt

/-- Output path chosen inside `convert_with_libreoffice` (lines 81-82, 105):
the input's stem plus the target extension, under the temp root. -/
def loOutputPath (input_path fmt : String) : String :=
  TEMP_DIR ++ "/" ++ splitextBase (pyBasename input_path) ++ "." ++ fmt

/-- Input temp path of `/merge-pdfs/` (line 193): `temp_<token>.pdf`. -/
def mergeTempPath (tok : String) : String := TEMP_DIR ++ "/temp_" ++ tok ++ ".pdf"

/-- Output path of `/merge-pdfs/` (line 201): `merged_<token>.pdf`. -/
def mergedPath (tok : String) : String := TEMP_DIR ++ "/merged_" ++ tok ++ ".pdf"

/-- Result of one `/convert/` run. `released` is the list passed to
`cleanup_files` on the error path; `bg` the background cleanup scheduled on
success; `created` every file the run created on disk; `state` the
filesystem after the error-path cleanup (if any) ran. -/
structure ConvRes where
  errKind : Option ApiError
  released : List (Option String)
  bg : List (Option String)
  response : Option String
  used : Option Converter
  created : List String
  state : FS

/-- One run of the `/convert/` endpoint (lines 117-173), including the
`except Exception` handler that calls `cleanup_files([temp_input,
output_path])` with the variables' values at failure time. The dead
`elif file_type == 'application/pdf' and output_format in ['png','jpg']`
branch is translated as written. -/
def convert_file (u : ConvUpload) (fmt : String) (tok : String) (lo : LoEnv)
    (imgOk : Bool) (s : FS) : ConvRes :=
  match get_disk_space s with
  | none =>
      ⟨some .diskFailure, [none, none], [], none, none, [],
        (cleanup_files [none, none] s).1⟩
  | some free =>
      if free < 10 then
        ⟨some .insufficientSpace, [none, none], [], none, none, [],
          (cleanup_files [none, none] s).1⟩
      else if allowedMime u.sniffed then
        let ti := tempInputPath u.filename
        let s1 := addFile s ti
        if u.writeOk then
          if strStarts "application/" u.sniffed then
            let lop := loOutputPath ti fmt
            let s2 := if lo.outExists then addFile s1 lop else s1
            let cr := if lo.outExists then [ti, lop] else [ti]
            if lo.exitOk then
              if lo.outExists ∧ lo.outNonempty then
                ⟨none, [], [some ti, some lop], some lop, some .libre, [ti, lop],
                  addFile s1 lop⟩
              else
                ⟨some .conversionFailed, [some ti, none], [], none, some .libre, cr,
                  (cleanup_files [some ti, none] s2).1⟩
            else
              ⟨some .conversionFailed, [some ti, none], [], none, some .libre, cr,
                (cleanup_files [some ti, none] s2).1⟩
          else if strStarts "image/" u.sniffed then
            let op := convOutPath tok fmt
            if imgOk then
              ⟨none, [], [some ti, some op], some op, some .pil, [ti, op],
                addFile s1 op⟩
            else
              ⟨some .conversionFailed, [some ti, some op], [], none, some .pil, [ti],
                (cleanup_files [some ti, some op] s1).1⟩
          else if u.sniffed = "application/pdf" ∧ (fmt = "png" ∨ fmt = "jpg") then
            let op := convOutPath tok fmt
            if imgOk then
              ⟨none, [], [some ti, some op], some op, some .p2i, [ti, op],
                addFile s1 op⟩
            else
              ⟨some .conversionFailed, [some ti, some op], [], none, some .p2i, [ti],
                (cleanup_files [some ti, some op] s1).1⟩
          else
            ⟨some .unsupportedConversion, [some ti, none], [], none, none, [ti],
              (cleanup_files [some ti, none] s1).1⟩
        else
          ⟨some .uploadReadFailed, [some ti, none], [], none, none, [ti],
            (cleanup_files [some ti, none] s1).1⟩
      else
        ⟨some .unsupportedType, [none, none], [], none, none, [],
          (cleanup_files [none, none] s).1⟩

/-- One upload to `/merge-pdfs/`: the declared `content_type` header (the
endpoint never sniffs), whether streaming it to disk completes, and whether
`merger.append` accepts the written file. -/
structure MergeUpload where
  content_type : String
  writeOk : Bool
  appendOk : Bool

/-- Result of one `/merge-pdfs/` run; fields as in `ConvRes` (the merge
handler passes a plain list of strings to `cleanup_files`). -/
structure MergeRes where
  errKind : Option ApiError
  released : List String
  bg : List String
  response : Option String
  created : List String
  state : FS

/-- The `for file in files` loop of `/merge-pdfs/` (lines 189-199): check the
declared content type, create and stream the temp file, append it to
`temp_files` and to the merger. `tok i` is the hex token drawn for the i-th
allocation. Returns (error kind if the loop raised, `temp_files`, files
created on disk, state). A file created by `open` whose streaming then fails
is on disk but not in `temp_files`. -/
def mergeLoop (tok : Nat → String) :
    List MergeUpload → Nat → FS → List String → List String →
    Option ApiError × List String × List String × FS
  | [], _, s, tfs, cr => (none, tfs, cr, s)
  | f :: fs, i, s, tfs, cr =>
    if f.content_type = "application/pdf" then
      let p := mergeTempPath (tok i)
      let s1 := addFile s p
      if f.writeOk then
        if f.appendOk then
          mergeLoop tok fs (i + 1) s1 (tfs ++ [p]) (cr ++ [p])
        else (some .mergeAppendFailed, tfs ++ [p], cr ++ [p], s1)
      else (some .uploadReadFailed, tfs, cr ++ [p], s1)
    else (some .onlyPdfAllowed, tfs, cr, s)

/-- One run of the `/merge-pdfs/` endpoint (lines 175-211). On any failure
the handler calls `cleanup_files(temp_files)` — the output path is never in
that list. On success the merged output token is the draw after the last
input token; `merger.write` creates the output file before it can fail. -/
def merge_pdfs (files : List MergeUpload) (tok : Nat → String)
    (mergeWriteOk : Bool) (s : FS) : MergeRes :=
  match get_disk_space s with
  | none => ⟨some .diskFailure, [], [], none, [], s⟩
  | some free =>
    if free < mkRat files.length 10 then
      ⟨some .insufficientSpace, [], [], none, [], (cleanup_files [] s).1⟩
    else
      match mergeLoop tok files 0 s [] [] with
      | (some k, tfs, cr, s1) =>
          ⟨some k, tfs, [], none, cr, (cleanup_files (tfs.map some) s1).1⟩
      | (none, tfs, cr, s1) =>
          let op := mergedPath (tok files.length)
          let s2 := addFile s1 op
          if mergeWriteOk then
            ⟨none, [], tfs ++ [op], some op, cr ++ [op], s2⟩
          else
            ⟨some .mergeWriteFailed, tfs, [], none, cr ++ [op],
              (cleanup_files (tfs.map some) s2).1⟩

/-! Concrete fixtures used by closed theorems and witnesses. -/

/-- Healthy state: empty disk, everything deletable, SSD accessible, 100 GB free. -/
def sOk : FS := ⟨[], fun _ => true, true, 100⟩

/-- Healthy state with exactly 10 GB free. -/
def sTen : FS := ⟨[], fun _ => true, true, 10⟩

/-- One deletable file under the temp root, 1 GB free. -/
def sLow : FS := ⟨[TEMP_DIR ++ "/x"], fun _ => true, true, 1⟩

/-- One undeletable file under the temp root, 1 GB free. -/
def sStuck : FS := ⟨[TEMP_DIR ++ "/stuck"], fun _ => false, true, 1⟩

/-- One existing but undeletable (permission-denied) file, plenty of space. -/
def sPerm : FS := ⟨[TEMP_DIR ++ "/a"], fun _ => false, true, 100⟩

/-- State whose storage root is inaccessible: `shutil.disk_usage` raises. -/
def sBad : FS := ⟨[TEMP_DIR ++ "/a"], fun _ => true, false, 100⟩

/-- Two deletable files outside the temp root, plenty of space. -/
def sTwo : FS := ⟨["/a", "/b"], fun _ => true, true, 100⟩

/-- Deterministic token supply standing in for `os.urandom(4).hex()` draws. -/
def tokF : Nat → String := fun i => if i = 0 then "t0" else if i = 1 then "t1" else "t2"

/-- A PDF upload whose sniffed type is `application/pdf`. -/
def uPdf : ConvUpload := ⟨"doc.pdf", "application/pdf", true⟩

/-- LibreOffice run that exits cleanly and produces a non-empty output. -/
def loGood : LoEnv := ⟨true, true, true⟩

/-- Merge request whose second input's streaming write fails after `open`
created the temp file. -/
def cfOrphan : List MergeUpload :=
  [⟨"application/pdf", true, true⟩, ⟨"application/pdf", false, true⟩]

/-- Merge request whose second file has declared content type `image/png`. -/
def cfPng : List MergeUpload :=
  [⟨"application/pdf", true, true⟩, ⟨"image/png", true, true⟩]

/-! Helper lemmas about the cleanup loop and the purge. -/

theorem cleanupLoop_deletable (ps : List (Option String)) (s : FS) :
    (cleanupLoop s ps).deletable = s.deletable := by
  induction ps generalizing s with
  | nil => rfl
  | cons p ps ih =>
    cases p with
    | none => simpa [cleanupLoop] using ih s
    | some q =>
      by_cases h1 : q = "" <;> by_cases h2 : q ∈ s.files <;>
        by_cases h3 : s.deletable q = true <;>
        simp [cleanupLoop, h1, h2, h3, ih, removeFile]

theorem cleanupLoop_ssd (ps : List (Option String)) (s : FS) :
    (cleanupLoop s ps).ssdAccessible = s.ssdAccessible := by
  induction ps generalizing s with
  | nil => rfl
  | cons p ps ih =>
    cases p with
    | none => simpa [cleanupLoop] using ih s
    | some q =>
      by_cases h1 : q = "" <;> by_cases h2 : q ∈ s.files <;>
        by_cases h3 : s.deletable q = true <;>
        simp [cleanupLoop, h1, h2, h3, ih, removeFile]

theorem cleanupLoop_freeGB (ps : List (Option String)) (s : FS) :
    (cleanupLoop s ps).freeGB = s.freeGB := by
  induction ps generalizing s with
  | nil => rfl
  | cons p ps ih =>
    cases p with
    | none => simpa [cleanupLoop] using ih s
    | some q =>
      by_cases h1 : q = "" <;> by_cases h2 : q ∈ s.files <;>
        by_cases h3 : s.deletable q = true <;>
        simp [cleanupLoop, h1, h2, h3, ih, removeFile]

theorem cleanupLoop_not_mem (ps : List (Option String)) (s : FS) (p : String)
    (h : p ∉ s.files) : p ∉ (cleanupLoop s ps).files := by
  induction ps generalizing s with
  | nil => exact h
  | cons q ps ih =>
    cases q with
    | none => simpa [cleanupLoop] using ih s h
    | some q =>
      by_cases h1 : q = "" <;> by_cases h2 : q ∈ s.files <;>
        by_cases h3 : s.deletable q = true <;>
        simp [cleanupLoop, h1, h2, h3] <;>
        first
        | exact ih s h
        | exact ih (removeFile s q) (by
            simp [removeFile, List.mem_filter]
            intro hmem
            exact absurd hmem h)

theorem cleanupLoop_removes (ps : List (Option String)) (s : FS) (p : String)
    (hmem : some p ∈ ps) (hne : p ≠ "") (hdel : s.deletable p = true) :
    p ∉ (cleanupLoop s ps).files := by
  induction ps generalizing s with
  | nil => simp at hmem
  | cons q ps ih =>
    rcases List.mem_cons.mp hmem with hq | htl
    · cases q with
      | none => simp at hq
      | some q =>
        have hqp : q = p := by simpa using hq.symm
        subst hqp
        by_cases h2 : q ∈ s.files
        · simp only [cleanupLoop, if_neg hne, if_pos h2, if_pos hdel]
          exact cleanupLoop_not_mem ps (removeFile s q) q
            (by simp [removeFile, List.mem_filter])
        · simp only [cleanupLoop, if_neg hne, if_neg h2]
          exact cleanupLoop_not_mem ps s q h2
    · cases q with
      | none => simpa [cleanupLoop] using ih s htl hdel
      | some q =>
        by_cases h1 : q = "" <;> by_cases h2 : q ∈ s.files <;>
          by_cases h3 : s.deletable q = true <;>
          simp only [cleanupLoop, h1, h2, h3, if_pos, if_neg, if_true, if_false,
            not_false_eq_true, not_true_eq_false] <;>
          first
          | exact ih s htl hdel
          | exact ih (removeFile s q) htl (by simpa [removeFile] using hdel)

theorem purge_subset (s : FS) (p : String) (h : p ∈ (purge s).files) :
    p ∈ s.files := by
  simpa [purge, List.mem_filter] using (List.mem_filter.mp h).1

theorem purge_removes (s : FS) (p : String)
    (hp : isUnderTemp p = true) (hd : s.deletable p = true) :
    p ∉ (purge s).files := by
  intro h
  have := (List.mem_filter.mp h).2
  simp [hp, hd] at this

theorem cleanupLoop_skip (ps : List (Option String)) (s : FS)
    (h : ∀ p ∈ ps, isTruthy p = false) : cleanupLoop s ps = s := by
  induction ps with
  | nil => rfl
  | cons p ps ih =>
    have hp := h p (List.mem_cons_self p ps)
    have htl : ∀ q ∈ ps, isTruthy q = false := fun q hq => h q (List.mem_cons_of_mem p hq)
    cases p with
    | none => simpa [cleanupLoop] using ih htl
    | some q =>
      have hq : q = "" := by simpa [isTruthy] using hp
      subst hq
      simpa [cleanupLoop] using ih htl

/-- Claim C1, as stated, is false: `cleanup_files` swallows every per-path
deletion error, but its trailing `get_disk_space()` re-check (line 64) is
outside any `try`; on a state whose storage root is inaccessible the call
raises even though the path list is perfectly ordinary. -/
theorem claim1_counterexample :
    (cleanup_files [some (TEMP_DIR ++ "/a")] sBad).2 = true := by decide

/-- Claim C1 (amended): whenever the storage root is accessible (so the
trailing `get_disk_space()` re-check succeeds), `cleanup_files` never raises,
for every input path list — unreadable and permission-denied paths included,
since the per-path loop swallows all deletion errors. -/
theorem claim1_release_no_raise (ps : List (Option String)) (s : FS)
    (h : s.ssdAccessible = true) : (cleanup_files ps s).2 = false := by
  unfold cleanup_files
  simp [cleanupLoop_ssd, h]

/-- Witness for C1 (amended) at a concrete state with a permission-denied
path in the list. -/
theorem claim1_witness : (cleanup_files [some (TEMP_DIR ++ "/a"), none] sPerm).2 = false :=
  claim1_release_no_raise [some (TEMP_DIR ++ "/a"), none] sPerm rfl

/-- Claim C5, as stated, is false: release does not remove every existing
file in its list. Here the listed file exists but `os.remove` fails
(permission denied); the error is swallowed (the call does not raise) and
the file is still present after release returns. -/
theorem claim5_counterexample :
    (cleanup_files [some (TEMP_DIR ++ "/a")] sPerm).2 = false ∧
    (TEMP_DIR ++ "/a") ∈ (cleanup_files [some (TEMP_DIR ++ "/a")] sPerm).1.files := by
  decide

/-- Claim C5 (amended): for every path list P whose (non-empty) entries are
all deletable, release removes every file of P that existed, paths that do
not exist are silently skipped, and — when the storage root is accessible —
the call raises no error. -/
theorem claim5_release_removes_deletable (ps : List (Option String)) (s : FS)
    (h : ∀ p, some p ∈ ps → p ≠ "" ∧ s.deletable p = true) :
    (∀ p, some p ∈ ps → p ∉ (cleanup_files ps s).1.files) ∧
    (s.ssdAccessible = true → (cleanup_files ps s).2 = false) := by
  constructor
  · intro p hp
    have hloop : p ∉ (cleanupLoop s ps).files :=
      cleanupLoop_removes ps s p hp (h p hp).1 (h p hp).2
    unfold cleanup_files
    by_cases hacc : (cleanupLoop s ps).ssdAccessible <;> simp [hacc]
    · by_cases hfree : (cleanupLoop s ps).freeGB < 5 <;> simp [hfree]
      · exact fun hmem => hloop (purge_subset _ _ hmem)
      · exact hloop
    · exact hloop
  · intro hs
    unfold cleanup_files
    simp [cleanupLoop_ssd, hs]

/-- Witness for C5 (amended): both existing deletable files are removed and
the `none` entry is skipped without error. -/
theorem claim5_witness :
    "/a" ∉ (cleanup_files [some "/a", none] sTwo).1.files ∧
    (cleanup_files [some "/a", none] sTwo).2 = false := by
  have h := claim5_release_removes_deletable [some "/a", none] sTwo
    (by intro p hp; simp at hp; subst hp; exact ⟨by decide, rfl⟩)
  exact ⟨h.1 "/a" (by simp), h.2 rfl⟩

/-- Claim C6, as stated, is false: the purge runs with `ignore_errors=True`,
so a file under the temp root whose deletion fails survives it. Here free
space is below 5 GB, release returns without raising, and the temp root
still contains a file. -/
theorem claim6_counterexample :
    sStuck.freeGB < 5 ∧
    (cleanup_files [] sStuck).2 = false ∧
    (TEMP_DIR ++ "/stuck") ∈ (cleanup_files [] sStuck).1.files ∧
    isUnderTemp (TEMP_DIR ++ "/stuck") = true := by decide

/-- Claim C6 (amended): if the storage root is accessible and the recomputed
free space after the deletion loop is below 5 GB, the destructive purge runs
and every deletable file under the temp root is gone when release returns;
only files whose deletion itself fails can survive (errors are ignored). -/
theorem claim6_purge_removes_deletable (ps : List (Option String)) (s : FS) (p : String)
    (hacc : s.ssdAccessible = true) (hfree : s.freeGB < 5)
    (hp : isUnderTemp p = true) (hd : s.deletable p = true) :
    p ∉ (cleanup_files ps s).1.files := by
  unfold cleanup_files
  simp [cleanupLoop_ssd, hacc, cleanupLoop_freeGB, hfree]
  exact purge_removes _ _ hp (by rw [cleanupLoop_deletable]; exact hd)

/-- Witness for C6 (amended) at a concrete low-space state: the deletable
file under the temp root is purged even though the path list was empty. -/
theorem claim6_witness : (TEMP_DIR ++ "/x") ∉ (cleanup_files [] sLow).1.files :=
  claim6_purge_removes_deletable [] sLow (TEMP_DIR ++ "/x") rfl (by decide)
    (by decide) rfl

/-- Claim C10: release tolerates `None` and empty-string entries — they are
skipped by the `if path and os.path.exists(path)` truthiness guard, so a
list of such entries behaves exactly like the empty list and (when the
storage root is accessible) the call raises nothing; and the conversion
endpoint's error path really does call release with `[None, None]` when it
fails before any allocation (here: the admission rejection). -/
theorem claim10_none_entries_noop :
    (∀ (ps : List (Option String)) (s : FS), (∀ p ∈ ps, isTruthy p = false) →
        cleanup_files ps s = cleanup_files [] s ∧
        (s.ssdAccessible = true → (cleanup_files ps s).2 = false)) ∧
    (∀ (u : ConvUpload) (fmt tok : String) (lo : LoEnv) (imgOk : Bool) (s : FS),
        s.ssdAccessible = true → s.freeGB < 10 →
        (convert_file u fmt tok lo imgOk s).released = [none, none]) := by
  constructor
  · intro ps s h
    have hl : cleanupLoop s ps = s := cleanupLoop_skip ps s h
    refine ⟨?_, ?_⟩
    · unfold cleanup_files
      rw [hl]
      rfl
    · intro hs
      unfold cleanup_files
      rw [hl]
      simp [hs]
  · intro u fmt tok lo imgOk s hacc hfree
    unfold convert_file get_disk_space
    simp [hacc, hfree]

/-- Witness for C10 at concrete inputs: an all-falsy list on a healthy
state, and a convert run that fails its admission check with both path
variables still `None`. -/
theorem claim10_witness :
    cleanup_files [none, some ""] sOk = cleanup_files [] sOk ∧
    (convert_file uPdf "pdf" "t" loGood true sLow).released = [none, none] :=
  ⟨(claim10_none_entries_noop.1 [none, some ""] sOk (by decide)).1,
   claim10_none_entries_noop.2 uPdf "pdf" "t" loGood true sLow rfl (by decide)⟩

/-! Helper lemmas about the merge loop. -/

theorem mergeLoop_tfs_mono (tok : Nat → String) (fs : List MergeUpload) :
    ∀ (i : Nat) (s : FS) (tfs cr : List String) (q : String), q ∈ tfs →
      q ∈ (mergeLoop tok fs i s tfs cr).2.1 := by
  induction fs with
  | nil => intro i s tfs cr q hq; simpa [mergeLoop] using hq
  | cons f fs ih =>
    intro i s tfs cr q hq
    by_cases h1 : f.content_type = "application/pdf"
    · cases hw : f.writeOk
      · simpa [mergeLoop, h1, hw] using hq
      · cases ha : f.appendOk
        · simp [mergeLoop, h1, hw, ha]
          exact Or.inl hq
        · simp [mergeLoop, h1, hw, ha]
          exact ih _ _ _ _ q (List.mem_append_left _ hq)
    · simpa [mergeLoop, h1] using hq

theorem mergeLoop_kind (tok : Nat → String) (fs : List MergeUpload) :
    ∀ (i : Nat) (s : FS) (tfs cr : List String) (k : ApiError),
      (mergeLoop tok fs i s tfs cr).1 = some k →
      k = ApiError.onlyPdfAllowed ∨ k = ApiError.uploadReadFailed ∨
        k = ApiError.mergeAppendFailed := by
  induction fs with
  | nil => intro i s tfs cr k h; simp [mergeLoop] at h
  | cons f fs ih =>
    intro i s tfs cr k h
    by_cases h1 : f.content_type = "application/pdf"
    · cases hw : f.writeOk
      · simp [mergeLoop, h1, hw] at h
        exact Or.inr (Or.inl h.symm)
      · cases ha : f.appendOk
        · simp [mergeLoop, h1, hw, ha] at h
          exact Or.inr (Or.inr h.symm)
        · exact ih _ _ _ _ k (by simpa [mergeLoop, h1, hw, ha] using h)
    · simp [mergeLoop, h1] at h
      exact Or.inl h.symm

theorem mergeLoop_created (tok : Nat → String) (fs : List MergeUpload) :
    ∀ (i : Nat) (s : FS) (tfs cr : List String) (p : String),
      p ∈ (mergeLoop tok fs i s tfs cr).2.2.1 →
      p ∈ cr ∨ p ∈ (mergeLoop tok fs i s tfs cr).2.1 ∨
      ∃ j f, fs.get? j = some f ∧ f.writeOk = false ∧ p = mergeTempPath (tok (i + j)) := by
  induction fs with
  | nil =>
    intro i s tfs cr p hp
    exact Or.inl (by simpa [mergeLoop] using hp)
  | cons f fs ih =>
    intro i s tfs cr p hp
    by_cases h1 : f.content_type = "application/pdf"
    · cases hw : f.writeOk
      · simp [mergeLoop, h1, hw] at hp ⊢
        rcases hp with hcr | hp0
        · exact Or.inl hcr
        · exact Or.inr (Or.inr ⟨0, f, by simp, hw, by simpa using hp0⟩)
      · cases ha : f.appendOk
        · simp [mergeLoop, h1, hw, ha] at hp ⊢
          rcases hp with hcr | hp0
          · exact Or.inl hcr
          · exact Or.inr (Or.inl (Or.inr hp0))
        · simp only [mergeLoop, h1, hw, ha] at hp ⊢
          simp only [if_pos rfl, if_pos] at hp ⊢
          have hrec := ih (i + 1) (addFile s (mergeTempPath (tok i)))
            (tfs ++ [mergeTempPath (tok i)]) (cr ++ [mergeTempPath (tok i)]) p hp
          rcases hrec with hcr | htfs | ⟨j, g, hg, hgw, hpj⟩
          · rcases List.mem_append.mp hcr with h | h
            · exact Or.inl h
            · refine Or.inr (Or.inl ?_)
              exact mergeLoop_tfs_mono tok fs (i + 1) _ _ _ p
                (List.mem_append_right _ h)
          · exact Or.inr (Or.inl htfs)
          · refine Or.inr (Or.inr ⟨j + 1, g, by simpa using hg, hgw, ?_⟩)
            rw [hpj]
            have hn : i + 1 + j = i + (j + 1) := by omega
            rw [hn]
    · simp [mergeLoop, h1] at hp ⊢
      exact Or.inl hp

theorem mergeLoop_no_onlyPdf (tok : Nat → String) (fs : List MergeUpload)
    (hall : ∀ f ∈ fs, f.content_type = "application/pdf") :
    ∀ (i : Nat) (s : FS) (tfs cr : List String),
      (mergeLoop tok fs i s tfs cr).1 ≠ some ApiError.onlyPdfAllowed := by
  induction fs with
  | nil => intro i s tfs cr; simp [mergeLoop]
  | cons f fs ih =>
    intro i s tfs cr
    have h1 : f.content_type = "application/pdf" := hall f (List.mem_cons_self f fs)
    have htl : ∀ g ∈ fs, g.content_type = "application/pdf" :=
      fun g hg => hall g (List.mem_cons_of_mem f hg)
    cases hw : f.writeOk
    · simp [mergeLoop, h1, hw]
    · cases ha : f.appendOk
      · simp [mergeLoop, h1, hw, ha]
      · simpa [mergeLoop, h1, hw, ha] using ih htl _ _ _ _

theorem mergeLoop_hits_onlyPdf (tok : Nat → String) (fs : List MergeUpload)
    (hok : ∀ f ∈ fs, f.writeOk = true ∧ f.appendOk = true)
    (hbad : ∃ f ∈ fs, f.content_type ≠ "application/pdf") :
    ∀ (i : Nat) (s : FS) (tfs cr : List String),
      (mergeLoop tok fs i s tfs cr).1 = some ApiError.onlyPdfAllowed := by
  induction fs with
  | nil => simp at hbad
  | cons f fs ih =>
    intro i s tfs cr
    by_cases h1 : f.content_type = "application/pdf"
    · have hw := (hok f (List.mem_cons_self f fs)).1
      have ha := (hok f (List.mem_cons_self f fs)).2
      have htl : ∀ g ∈ fs, g.writeOk = true ∧ g.appendOk = true :=
        fun g hg => hok g (List.mem_cons_of_mem f hg)
      have hbad' : ∃ g ∈ fs, g.content_type ≠ "application/pdf" := by
        rcases hbad with ⟨g, hg, hgc⟩
        rcases List.mem_cons.mp hg with rfl | hg'
        · exact absurd h1 hgc
        · exact ⟨g, hg', hgc⟩
      simpa [mergeLoop, h1, hw, ha] using ih htl hbad' _ _ _ _
    · simp [mergeLoop, h1]

/-- Bridge between the executable guard `mkRat n 10` and the specification
phrase "0.1 GB times the file count". -/
theorem tenth_cast (n : ℕ) : mkRat n 10 = (n : ℚ) * (1 / 10) := by
  rw [Rat.mkRat_eq_div]
  push_cast
  ring

/-- Claim C2, as stated, is false: a merge request whose second input's
streaming write fails leaves that input's temp file on disk (the `open`
already created it) but outside `temp_files`, so the error-path release call
never sees it — an orphan path invisible to cleanup, still present in the
final state. -/
theorem claim2_counterexample :
    (merge_pdfs cfOrphan tokF true sOk).errKind = some ApiError.uploadReadFailed ∧
    mergeTempPath "t1" ∈ (merge_pdfs cfOrphan tokF true sOk).created ∧
    mergeTempPath "t1" ∉ (merge_pdfs cfOrphan tokF true sOk).released ∧
    mergeTempPath "t1" ∈ (merge_pdfs cfOrphan tokF true sOk).state.files := by
  decide

/-- Claim C3 is wrong about the code (code bug): for an upload sniffed as
`application/pdf` with target format `png`, the dispatch takes the
`startswith('application/')` branch first, so LibreOffice performs the
conversion and its output is the document-suite output path; the
`pdf2image` rasterizer branch below it is unreachable. -/
theorem claim3_pdf_png_uses_libreoffice :
    (convert_file uPdf "png" "t" loGood true sOk).used = some Converter.libre ∧
    (convert_file uPdf "png" "t" loGood true sOk).response
      = some (loOutputPath (tempInputPath "doc.pdf") "png") := by
  decide

/-- Claim C9: in a merge request whose second file carries content type
`image/png`, the whole request is rejected, no output file is created, and
the one temp input written for the request is removed by the error-path
cleanup. -/
theorem claim9_merge_png_scenario :
    (merge_pdfs cfPng tokF true sOk).errKind = some ApiError.onlyPdfAllowed ∧
    (merge_pdfs cfPng tokF true sOk).response = none ∧
    (merge_pdfs cfPng tokF true sOk).created = [mergeTempPath "t0"] ∧
    (merge_pdfs cfPng tokF true sOk).state.files = [] := by
  decide

/-- Claim C7, as stated, is false for the merge endpoint: a single-file merge
whose upload is declared (and sniffed) `image/png` is rejected even though
`image/png` is in the allow-list of broad categories — the merge endpoint
compares the declared content type against the literal `application/pdf` and
never consults the sniffing allow-list. -/
theorem claim7_counterexample :
    allowedMime "image/png" = true ∧
    (merge_pdfs [⟨"image/png", true, true⟩] tokF true sOk).errKind
      = some ApiError.onlyPdfAllowed := by
  decide

/-- Claim C4: with an accessible storage root, the conversion endpoint fails
with the insufficient-disk-space error exactly when free space is below
10 GB (so exactly 10 GB is admitted), and the merge endpoint fails with it
exactly when free space is below 0.1 GB times the number of files. -/
theorem claim4_admission_thresholds :
    (∀ (u : ConvUpload) (fmt tok : String) (lo : LoEnv) (imgOk : Bool) (s : FS),
        s.ssdAccessible = true →
        ((convert_file u fmt tok lo imgOk s).errKind = some ApiError.insufficientSpace ↔
          s.freeGB < 10)) ∧
    (∀ (files : List MergeUpload) (tok : Nat → String) (w : Bool) (s : FS),
        s.ssdAccessible = true →
        ((merge_pdfs files tok w s).errKind = some ApiError.insufficientSpace ↔
          s.freeGB < (files.length : ℚ) * (1 / 10))) := by
  constructor
  · intro u fmt tok lo imgOk s hacc
    have hd : get_disk_space s = some s.freeGB := by simp [get_disk_space, hacc]
    constructor
    · intro hk
      by_contra h10
      unfold convert_file at hk
      rw [hd] at hk
      simp only [if_neg h10] at hk
      repeat' split at hk
      all_goals simp at hk
    · intro h10
      unfold convert_file
      rw [hd]
      simp [h10]
  · intro files tok w s hacc
    have hd : get_disk_space s = some s.freeGB := by simp [get_disk_space, hacc]
    rw [← tenth_cast]
    constructor
    · intro hk
      by_contra hf
      unfold merge_pdfs at hk
      rw [hd] at hk
      simp only [if_neg hf] at hk
      rcases hml : mergeLoop tok files 0 s [] [] with ⟨ko, tfs, cr, s1⟩
      rw [hml] at hk
      cases ko with
      | some k =>
        simp at hk
        have := mergeLoop_kind tok files 0 s [] [] k (by rw [hml])
        rw [hk] at this
        simp at this
      | none =>
        cases w <;> simp at hk
    · intro hf
      unfold merge_pdfs
      rw [hd]
      simp [hf]

/-- Witness for C4 at a concrete state with exactly 10 GB free: the
conversion endpoint does not fail the admission check there. -/
theorem claim4_witness :
    (convert_file uPdf "pdf" "t" loGood true sTen).errKind
      = some ApiError.insufficientSpace ↔ sTen.freeGB < 10 :=
  claim4_admission_thresholds.1 uPdf "pdf" "t" loGood true sTen rfl

/-- Claim C2 (amended): on every failing request, release is called with
every temp path the request had recorded by failure time; a created path can
escape the release list only in the known orphan cases — for merge, the
merged output (never in `temp_files`) or an input whose streaming write
failed after `open` created it; for convert, the document-suite output file
that was produced but never assigned to `output_path`. -/
theorem claim2_released_paths :
    (∀ (files : List MergeUpload) (tok : Nat → String) (w : Bool) (s : FS)
        (r : MergeRes), merge_pdfs files tok w s = r → r.errKind ≠ none →
        ∀ p ∈ r.created,
          p ∈ r.released ∨
          p = mergedPath (tok files.length) ∨
          ∃ j f, files.get? j = some f ∧ f.writeOk = false ∧
            p = mergeTempPath (tok j)) ∧
    (∀ (u : ConvUpload) (fmt tok : String) (lo : LoEnv) (imgOk : Bool) (s : FS)
        (r : ConvRes), convert_file u fmt tok lo imgOk s = r → r.errKind ≠ none →
        ∀ p ∈ r.created,
          some p ∈ r.released ∨
          p = loOutputPath (tempInputPath u.filename) fmt) := by
  constructor
  · intro files tok w s r hr hne p hp
    unfold merge_pdfs at hr
    split at hr
    · rw [← hr] at hp
      simp at hp
    · split at hr
      · rw [← hr] at hp
        simp at hp
      · split at hr
        · rename_i k tfs cr s1 hml
          rw [← hr] at hp ⊢
          have hc := mergeLoop_created tok files 0 s [] [] p (by rw [hml]; exact hp)
          rw [hml] at hc
          rcases hc with h | h | ⟨j, g, hg, hgw, hpj⟩
          · simp at h
          · left
            exact h
          · right
            right
            exact ⟨j, g, hg, hgw, by simpa using hpj⟩
        · rename_i tfs cr s1 hml
          cases w
          · simp at hr
            rw [← hr] at hp ⊢
            rcases List.mem_append.mp hp with hcr | hop
            · have hc := mergeLoop_created tok files 0 s [] [] p (by rw [hml]; exact hcr)
              rw [hml] at hc
              rcases hc with h | h | ⟨j, g, hg, hgw, hpj⟩
              · simp at h
              · left
                exact h
              · right
                right
                exact ⟨j, g, hg, hgw, by simpa using hpj⟩
            · right
              left
              simpa using hop
          · simp at hr
            rw [← hr] at hne
            simp at hne
  · intro u fmt tok lo imgOk s r hr hne p hp
    unfold convert_file at hr
    repeat' split at hr
    all_goals rw [← hr] at hne hp ⊢
    all_goals simp_all

/-- Witness for C2 (amended): a convert run whose upload write fails has its
recorded input path in the released list. -/
theorem claim2_witness :
    some (tempInputPath "doc.pdf")
      ∈ (convert_file ⟨"doc.pdf", "application/pdf", false⟩ "png" "t" loGood true sOk).released ∨
    tempInputPath "doc.pdf" = loOutputPath (tempInputPath "doc.pdf") "png" :=
  claim2_released_paths.2 ⟨"doc.pdf", "application/pdf", false⟩ "png" "t" loGood true sOk
    (convert_file ⟨"doc.pdf", "application/pdf", false⟩ "png" "t" loGood true sOk) rfl
    (by decide) (tempInputPath "doc.pdf") (by decide)

/-- Claim C7 (amended): the conversion endpoint (past its admission check)
fails with the unsupported-type error exactly when the sniffed MIME type
matches no allow-list prefix; the merge endpoint never consults the sniffed
type or the allow-list — it rejects with its PDFs-only error exactly when
some file's declared content type differs from `application/pdf` (no such
rejection when all declared types are `application/pdf`). -/
theorem claim7_mime_gates :
    (∀ (u : ConvUpload) (fmt tok : String) (lo : LoEnv) (imgOk : Bool) (s : FS),
        s.ssdAccessible = true → ¬ s.freeGB < 10 →
        ((convert_file u fmt tok lo imgOk s).errKind = some ApiError.unsupportedType ↔
          allowedMime u.sniffed = false)) ∧
    (∀ (files : List MergeUpload) (tok : Nat → String) (w : Bool) (s : FS),
        ((∀ f ∈ files, f.content_type = "application/pdf") →
            (merge_pdfs files tok w s).errKind ≠ some ApiError.onlyPdfAllowed) ∧
        ((∀ f ∈ files, f.writeOk = true ∧ f.appendOk = true) →
          (∃ f ∈ files, f.content_type ≠ "application/pdf") →
          s.ssdAccessible = true → ¬ s.freeGB < (files.length : ℚ) * (1 / 10) →
          (merge_pdfs files tok w s).errKind = some ApiError.onlyPdfAllowed)) := by
  constructor
  · intro u fmt tok lo imgOk s hacc h10
    have hd : get_disk_space s = some s.freeGB := by simp [get_disk_space, hacc]
    constructor
    · intro hk
      cases hm : allowedMime u.sniffed
      · rfl
      · exfalso
        unfold convert_file at hk
        rw [hd] at hk
        simp only [if_neg h10, hm] at hk
        repeat' split at hk
        all_goals simp_all
    · intro hm
      unfold convert_file
      rw [hd]
      simp [h10, hm]
  · intro files tok w s
    constructor
    · intro hall hk
      unfold merge_pdfs at hk
      rcases hd : get_disk_space s with _ | free
      · rw [hd] at hk
        simp at hk
      · rw [hd] at hk
        by_cases hf : free < mkRat files.length 10
        · simp only [if_pos hf] at hk
          simp at hk
        · simp only [if_neg hf] at hk
          rcases hml : mergeLoop tok files 0 s [] [] with ⟨ko, tfs, cr, s1⟩
          rw [hml] at hk
          cases ko with
          | some k =>
            simp at hk
            exact mergeLoop_no_onlyPdf tok files hall 0 s [] [] (by rw [hml]; simp [hk])
          | none =>
            cases w <;> simp at hk
    · intro hok hbad hacc hf
      have hd : get_disk_space s = some s.freeGB := by simp [get_disk_space, hacc]
      rw [← tenth_cast] at hf
      unfold merge_pdfs
      rw [hd]
      simp only [if_neg hf]
      rcases hml : mergeLoop tok files 0 s [] [] with ⟨ko, tfs, cr, s1⟩
      have hhit := mergeLoop_hits_onlyPdf tok files hok hbad 0 s [] []
      rw [hml] at hhit
      cases ko with
      | some k =>
        simp at hhit
        simp [hhit]
      | none =>
        simp at hhit

/-- Witness for C7 (amended): a sniffed type outside every allow-list
category makes the conversion endpoint fail with the unsupported-type
error. -/
theorem claim7_witness :
    (convert_file ⟨"clip.mp4", "video/mp4", true⟩ "pdf" "t" loGood true sOk).errKind
      = some ApiError.unsupportedType ↔ allowedMime "video/mp4" = false :=
  claim7_mime_gates.1 ⟨"clip.mp4", "video/mp4", true⟩ "pdf" "t" loGood true sOk rfl
    (by decide)

/-! String lemmas for path-uniqueness reasoning. -/

theorem strData_append (s t : String) : (s ++ t).data = s.data ++ t.data := rfl

theorem strData_inj {s t : String} (h : s.data = t.data) : s = t := by
  cases s
  cases t
  exact congrArg String.mk h

theorem mergeTempPath_inj : Function.Injective mergeTempPath := by
  intro a b h
  have hd := congrArg String.data h
  simp only [mergeTempPath, strData_append, List.append_assoc] at hd
  have h1 := List.append_cancel_left hd
  have h2 := List.append_cancel_left h1
  have h3 := List.append_cancel_right h2
  exact strData_inj h3

/-- Claim C8, as stated, is false: the conversion endpoint's input temp path
is joined from the client-supplied filename with no random token at all, so
two requests (concurrent or sequential) uploading the same filename are
allocated the very same path — the allocations are not pairwise distinct. -/
theorem claim8_counterexample :
    tempInputPath "a.pdf" = TEMP_DIR ++ "/" ++ "a.pdf" ∧
    ¬ ([tempInputPath "a.pdf", tempInputPath "a.pdf"] : List String).Nodup :=
  ⟨rfl, by decide⟩

theorem mergedPath_inj : Function.Injective mergedPath := by
  intro a b h
  have hd := congrArg String.data h
  simp only [mergedPath, strData_append, List.append_assoc] at hd
  have h1 := List.append_cancel_left hd
  have h2 := List.append_cancel_left h1
  have h3 := List.append_cancel_right h2
  exact strData_inj h3

theorem convOutPath_inj (t1 t2 fmt : String)
    (h : convOutPath t1 fmt = convOutPath t2 fmt) : t1 = t2 := by
  have hd := congrArg String.data h
  simp only [convOutPath, strData_append, List.append_assoc] at hd
  have h1 := List.append_cancel_left hd
  have h2 := List.append_cancel_left h1
  have h3 := List.append_cancel_right h2
  exact strData_inj h3

theorem mergeTempPath_ne_mergedPath (t1 t2 : String) :
    mergeTempPath t1 ≠ mergedPath t2 := by
  intro h
  have hd := congrArg String.data h
  simp only [mergeTempPath, mergedPath, strData_append, List.append_assoc] at hd
  have h1 := List.append_cancel_left hd
  simp at h1

theorem mergeTempPath_ne_convOutPath (t1 t2 fmt : String) :
    mergeTempPath t1 ≠ convOutPath t2 fmt := by
  intro h
  have hd := congrArg String.data h
  simp only [mergeTempPath, convOutPath, strData_append, List.append_assoc] at hd
  have h1 := List.append_cancel_left hd
  simp at h1

theorem mergedPath_ne_convOutPath (t1 t2 fmt : String) :
    mergedPath t1 ≠ convOutPath t2 fmt := by
  intro h
  have hd := congrArg String.data h
  simp only [mergedPath, convOutPath, strData_append, List.append_assoc] at hd
  have h1 := List.append_cancel_left hd
  simp at h1

/-- Claim C8 (amended): every token-bearing allocation family is injective
in the token — the merge endpoint's `temp_<token>.pdf` inputs, its
`merged_<token>.pdf` output, and the conversion endpoint's
`converted_<token>.<fmt>` outputs — so within each family draws with
pairwise distinct tokens yield pairwise distinct paths (stated as `Nodup`
for the unary families), and paths from different families never collide
even with equal tokens; distinctness is therefore only as good as the
4-byte random tokens, and the conversion input path carries no token at
all. -/
theorem claim8_token_paths_distinct :
    (∀ t1 t2 : String, mergeTempPath t1 = mergeTempPath t2 → t1 = t2) ∧
    (∀ t1 t2 : String, mergedPath t1 = mergedPath t2 → t1 = t2) ∧
    (∀ t1 t2 fmt : String, convOutPath t1 fmt = convOutPath t2 fmt → t1 = t2) ∧
    (∀ t1 t2 : String, mergeTempPath t1 ≠ mergedPath t2) ∧
    (∀ t1 t2 fmt : String, mergeTempPath t1 ≠ convOutPath t2 fmt) ∧
    (∀ t1 t2 fmt : String, mergedPath t1 ≠ convOutPath t2 fmt) ∧
    (∀ (toks : List String), toks.Nodup →
        (toks.map mergeTempPath).Nodup ∧ (toks.map mergedPath).Nodup) :=
  ⟨fun _ _ h => mergeTempPath_inj h,
   fun _ _ h => mergedPath_inj h,
   convOutPath_inj,
   mergeTempPath_ne_mergedPath,
   mergeTempPath_ne_convOutPath,
   mergedPath_ne_convOutPath,
   fun _ h => ⟨h.map mergeTempPath_inj, h.map mergedPath_inj⟩⟩

/-- Witness for C8 (amended) on concrete tokens: two distinct tokens give
distinct merge input paths, and the input and output families are disjoint
even on the same token. -/
theorem claim8_witness :
    ((["a", "b"] : List String).map mergeTempPath).Nodup ∧
    mergeTempPath "a" ≠ mergedPath "a" :=
  ⟨(claim8_token_paths_distinct.2.2.2.2.2.2 ["a", "b"] (by decide)).1,
   claim8_token_paths_distinct.2.2.2.1 "a" "a"⟩
